import Mathlib

/-!
Verification development for the forum moderation bot in src/main.py.

The Python source is embedded shallowly: the pure logic of each function is
translated into executable Lean definitions over lists of characters and
strings, with external collaborators (the Groq assessment service and the
Discord webhook) modelled as oracle parameters.  Sets are modelled as
Finset, Python str.split via an explicit first-occurrence splitter.
-/

namespace CoastalBot

/-! ## Python string primitives

Models of the Python string operations used by main.py, over List Char:
str.split(sep) indexing, the substring test (the in operator), and
occurrence positions.
-/

/-- Model of finding the first occurrence of a separator in a string:
returns the part strictly before the first occurrence and the part
strictly after it, or none when the separator does not occur. -/
def splitFirst (pat : List Char) : List Char → Option (List Char × List Char)
  | [] => if pat.isEmpty then some ([], []) else none
  | c :: rest =>
    if pat.isPrefixOf (c :: rest) then some ([], (c :: rest).drop pat.length)
    else match splitFirst pat rest with
      | none => none
      | some (a, b) => some (c :: a, b)

/-- Index of the first occurrence of a pattern, if any. -/
def occIdx (pat : List Char) : List Char → Option Nat
  | [] => if pat.isEmpty then some 0 else none
  | c :: rest =>
    if pat.isPrefixOf (c :: rest) then some 0
    else (occIdx pat rest).map (fun i => i + 1)

/-- Model of the Python substring test (the in operator on str). -/
def strContains (s pat : String) : Bool := (splitFirst pat.data s.data).isSome

/-- Model of Python str.strip: drop whitespace from both ends. -/
def trimList (l : List Char) : List Char :=
  ((l.dropWhile Char.isWhitespace).reverse.dropWhile Char.isWhitespace).reverse

/-- Model of Python str.strip on strings. -/
def trimStr (s : String) : String := String.mk (trimList s.data)

/-- Model of Python str.lower: lowercase character by character. -/
def lowerStr (s : String) : String := String.mk (s.data.map Char.toLower)

/-- Model of the Python slice s[:n]: the first n characters. -/
def takeStr (s : String) (n : Nat) : String := String.mk (s.data.take n)

/-- Join a list of strings with a separator. -/
def intercalateStr (sep : String) : List String → String
  | [] => ""
  | [x] => x
  | x :: xs => x ++ sep ++ intercalateStr sep xs

/-- Model of the Python expression s.split(sep)[0]: the part of s before
the first occurrence of sep, or all of s when sep does not occur. -/
def splitIdx0 (pat : List Char) (s : List Char) : List Char :=
  match splitFirst pat s with
  | none => s
  | some (a, _) => a

/-- Model of the Python expression s.split(sep)[1] (used only under a
guard that sep occurs in s): the part of s strictly between the first
and second occurrences of sep, or everything after the first occurrence
when sep occurs exactly once. -/
def splitIdx1 (pat : List Char) (s : List Char) : List Char :=
  match splitFirst pat s with
  | none => s
  | some (_, b) =>
    match splitFirst pat b with
    | none => b
    | some (c, _) => c

theorem splitFirst_eq_occIdx (pat : List Char) : ∀ s : List Char,
    splitFirst pat s = (occIdx pat s).map (fun i => (s.take i, s.drop (i + pat.length)))
  | [] => by
    simp only [splitFirst, occIdx]
    by_cases h : pat.isEmpty <;> simp [h]
  | c :: rest => by
    simp only [splitFirst, occIdx]
    by_cases h : pat.isPrefixOf (c :: rest)
    · simp [h]
    · have ih := splitFirst_eq_occIdx pat rest
      simp only [h, if_false, ih]
      cases hocc : occIdx pat rest with
      | none => simp
      | some i =>
        simp [List.take_succ_cons, List.drop_succ_cons, Nat.add_right_comm]

theorem strContains_iff_occIdx (s pat : String) :
    strContains s pat = true ↔ (occIdx pat.data s.data).isSome = true := by
  rw [strContains, splitFirst_eq_occIdx]
  cases occIdx pat.data s.data <;> simp

/-- splitFirst finds an occurrence exactly when the pattern is an infix. -/
theorem splitFirst_isSome_iff_sub (pat : List Char) : ∀ s : List Char,
    (splitFirst pat s).isSome = true ↔ pat <:+: s
  | [] => by
    simp only [splitFirst]
    by_cases h : pat.isEmpty
    · simp [h, List.isEmpty_iff.mp h]
    · have : pat ≠ [] := fun hh => h (List.isEmpty_iff.mpr hh)
      simp [h, List.infix_nil, this]
  | c :: rest => by
    simp only [splitFirst]
    by_cases h : pat.isPrefixOf (c :: rest)
    · have hpre : pat <+: c :: rest := by
        exact List.isPrefixOf_iff_prefix.mp h
      simp [h, List.infix_cons_iff.mpr (Or.inl hpre)]
    · have ih := splitFirst_isSome_iff_sub pat rest
      have hnpre : ¬ pat <+: c :: rest := fun hp => h (List.isPrefixOf_iff_prefix.mpr hp)
      simp only [h, if_false]
      constructor
      · intro hs
        rcases hm : splitFirst pat rest with _ | ⟨a, b⟩
        · rw [hm] at hs; simp at hs
        · have : pat <:+: rest := ih.mp (by rw [hm]; rfl)
          exact List.infix_cons_iff.mpr (Or.inr this)
      · intro hinf
        rcases List.infix_cons_iff.mp hinf with hp | ht
        · exact absurd hp hnpre
        · have := ih.mpr ht
          rcases hm : splitFirst pat rest with _ | ⟨a, b⟩
          · rw [hm] at this; simp at this
          · simp

/-- The substring test agrees with list-infix containment. -/
theorem strContains_iff_sub (s pat : String) :
    strContains s pat = true ↔ pat.data <:+: s.data :=
  splitFirst_isSome_iff_sub pat.data s.data

/-! ## Data model

Post records as produced by scrape_thread, and a small markup tree
standing for the parsed HTML document handed to BeautifulSoup. -/

/-- One message recovered from a thread page (a dict with author and
content keys in main.py). -/
structure Post where
  author : String
  content : String
  deriving DecidableEq, Repr

/-- A parsed markup node: either a text fragment or an element with a
tag, a class list and children. -/
inductive Node where
  | text (s : String)
  | elem (tag : String) (classes : List String) (children : List Node)
  deriving Repr

mutual

/-- All text fragments below a node, in document order. -/
def nodeStrings : Node → List String
  | Node.text s => [s]
  | Node.elem _ _ children => nodeStringsList children

def nodeStringsList : List Node → List String
  | [] => []
  | n :: ns => nodeStrings n ++ nodeStringsList ns

end

/-- Model of BeautifulSoup get_text with a one-space separator and
strip=true: each text fragment is trimmed, empties are dropped, and the
rest are joined by single spaces. -/
def getText (n : Node) : String :=
  intercalateStr " " (((nodeStrings n).map trimStr).filter (fun s => s ≠ ""))

mutual

/-- All elements (the node itself included) satisfying a tag/class
predicate, in document order: the model of soup.find_all. -/
def collectElems (p : String → List String → Bool) : Node → List Node
  | Node.text _ => []
  | Node.elem tag cls children =>
    (if p tag cls then [Node.elem tag cls children] else []) ++ collectElemsList p children

def collectElemsList (p : String → List String → Bool) : List Node → List Node
  | [] => []
  | n :: ns => collectElems p n ++ collectElemsList p ns

end

/-- Model of soup.find_all applied to td elements (main.py line 78). -/
def findAllTd (doc : Node) : List Node :=
  collectElems (fun tag _ => tag == "td") doc

/-- The text of every td cell of the document, in document order. -/
def tdTexts (doc : Node) : List String :=
  (findAllTd doc).map getText

/-! ## Local lexical filter (contains_profanity, main.py lines 54 to 60) -/

/-- The configured wordlist of main.py (lines 40 to 44). -/
def PROFANITY_LIST : List String :=
  ["fuck", "shit", "bitch", "ass", "asshole", "damn", "crap",
   "bastard", "dick", "piss", "cunt", "faggot", "retard"]

/-- Model of contains_profanity: lowercase the text once, then test each
configured word for substring containment. -/
def contains_profanity (text : String) : Bool :=
  let text_lower := lowerStr text
  PROFANITY_LIST.any (fun word => strContains text_lower word)

/-! ## Content extractor (scrape_thread, main.py lines 63 to 104)

The body of the per-cell loop is factored out as processCell; the fetch
and the HTML parse are collaborators, so scrape_thread is modelled from
the parsed document on. -/

/-- The literal marker identifying a post header cell. -/
def postByMarker : String := "Post by"

/-- The literal separator ending the author segment. -/
def onMarker : String := "on"

/-- The literal marker preceding the message content. -/
def backToTopMarker : String := "Back to Top"

/-- The per-cell body of the loop in scrape_thread (main.py lines 78 to
102): skip cells shorter than 20 characters or without the post-header
marker, parse the author from the segment after the marker up to the
separator, take the content after the Back to Top marker when present,
and keep the post only when the content is nonempty. -/
def processCell (text : String) : Option Post :=
  if text.length < 20 then none
  else if strContains text postByMarker = false then none
  else
    let after := String.mk (splitIdx1 postByMarker.data text.data)
    let author := trimStr (String.mk (splitIdx0 onMarker.data after.data))
    let content :=
      if strContains text backToTopMarker then
        trimStr (String.mk (splitIdx1 backToTopMarker.data text.data))
      else text
    if content = "" then none else some { author := author, content := content }

/-- Model of scrape_thread on an already fetched and parsed document:
every td cell is run through the per-cell loop body. -/
def scrape_thread (doc : Node) : List Post :=
  (tdTexts doc).filterMap processCell

/-- scrape_thread applied directly to a list of cell texts (the shape in
which a thread page reaches the per-cell loop). -/
def scrapeCells (cells : List String) : List Post :=
  cells.filterMap processCell

theorem scrape_thread_eq_scrapeCells (doc : Node) :
    scrape_thread doc = scrapeCells (tdTexts doc) := rfl

/-! ## External collaborators as oracles

The Groq assessment call and the Discord webhook are external services;
their outcomes are supplied as oracle functions.  Nothing in the state
transition depends on a delivery outcome, mirroring main.py where
send_discord_report swallows its exception. -/

/-- Outcome of one Groq API request: the parsed message content on
success, or the exception text on any transport or parse failure. -/
inductive GroqResp where
  | ok (s : String)
  | err (e : String)
  deriving DecidableEq, Repr

/-- The literal placeholder returned by ask_groq on failure (main.py
line 141). -/
def groqErrorPlaceholder (e : String) : String :=
  "[Error contacting Groq: " ++ e ++ "]"

/-- Model of ask_groq (main.py lines 107 to 141): on success the
response content is stripped and returned; on failure the error
placeholder is returned instead of raising. -/
def ask_groq (oracle : String → String → GroqResp) (post_text author : String) : String :=
  match oracle post_text author with
  | GroqResp.ok s => trimStr s
  | GroqResp.err e => groqErrorPlaceholder e

/-- The alert record composed by send_discord_report (main.py lines 144
to 156), with the field names of its parameters. -/
structure Alert where
  post_time : String
  author : String
  profanity : Bool
  bullying_summary : String
  post_url : String
  deriving DecidableEq, Repr

/-- Model of send_discord_report: compose the alert and attempt
delivery; the outcome (the Bool) is only logged and flows nowhere. -/
def send_discord_report (disp : Alert → Bool) (post_time author : String)
    (profanity : Bool) (bullying_summary post_url : String) : Alert × Bool :=
  let a : Alert :=
    { post_time := post_time, author := author, profanity := profanity,
      bullying_summary := bullying_summary, post_url := post_url }
  (a, disp a)

/-! ## Change tracker (seen_posts, main.py lines 51, 188 to 195, 236 to 237) -/

/-- The change key: (thread link, author, first 100 characters of the
content), exactly the tuple built at main.py lines 189 and 236. -/
abbrev Fingerprint := String × String × String

/-- The fingerprint of a post within the thread reached by a link. -/
def fingerprint (link : String) (p : Post) : Fingerprint :=
  (link, p.author, takeStr p.content 100)

/-- The membership-check-and-insert at main.py lines 191 to 195, as one
operation: report whether the key is new and return the updated set. -/
def is_new (seen : Finset Fingerprint) (k : Fingerprint) : Bool × Finset Fingerprint :=
  if k ∈ seen then (false, seen) else (true, insert k seen)

/-- A sequence of novelty checks threaded through the seen set. -/
def runChecks (seen : Finset Fingerprint) : List Fingerprint → List Bool × Finset Fingerprint
  | [] => ([], seen)
  | k :: ks =>
    let r := is_new seen k
    let rest := runChecks r.2 ks
    (r.1 :: rest.1, rest.2)

/-! ## Polling cycle (check_feed, main.py lines 166 to 210)

The observable effects of a cycle are logged: every content string
passed to contains_profanity, every (content, author) pair sent to
ask_groq, and every alert attempt with its delivery outcome. -/

/-- The external calls made while processing posts. -/
structure CycleLog where
  filterCalls : List String
  groqCalls : List (String × String)
  alerts : List (Alert × Bool)
  deriving DecidableEq, Repr

/-- The log at the start of a run. -/
def emptyLog : CycleLog :=
  { filterCalls := [], groqCalls := [], alerts := [] }

/-- The body of the per-post loop of check_feed (main.py lines 184 to
210): skip a seen fingerprint; otherwise mark it seen, screen the
content locally, and for flagged content request the assessment and
dispatch one alert. -/
def processPost (groq : String → String → GroqResp) (disp : Alert → Bool)
    (link published : String) (seen : Finset Fingerprint) (log : CycleLog)
    (post : Post) : Finset Fingerprint × CycleLog :=
  let fp := fingerprint link post
  if fp ∈ seen then (seen, log)
  else
    let seen1 := insert fp seen
    let log1 := { log with filterCalls := log.filterCalls ++ [post.content] }
    if contains_profanity post.content = false then (seen1, log1)
    else
      let bullying_summary := ask_groq groq post.content post.author
      let sent := send_discord_report disp published post.author true bullying_summary link
      (seen1,
       { log1 with
         groqCalls := log1.groqCalls ++ [(post.content, post.author)],
         alerts := log1.alerts ++ [sent] })

/-- The per-post loop over the posts of one thread. -/
def processPosts (groq : String → String → GroqResp) (disp : Alert → Bool)
    (link published : String) :
    Finset Fingerprint → CycleLog → List Post → Finset Fingerprint × CycleLog
  | seen, log, [] => (seen, log)
  | seen, log, p :: ps =>
    let r := processPost groq disp link published seen log p
    processPosts groq disp link published r.1 r.2 ps

/-- One feed entry together with the td-cell texts its thread page
yields when fetched and parsed (the upstream state for one thread). -/
structure Entry where
  link : String
  published : String
  title : String
  cells : List String
  deriving Repr

/-- The posts scrape_thread recovers for an entry. -/
def postsOf (e : Entry) : List Post := scrapeCells e.cells

/-- The per-entry loop of check_feed: scrape every listed thread and
process its posts. -/
def runEntries (groq : String → String → GroqResp) (disp : Alert → Bool) :
    Finset Fingerprint → CycleLog → List Entry → Finset Fingerprint × CycleLog
  | seen, log, [] => (seen, log)
  | seen, log, e :: es =>
    let r := processPosts groq disp e.link e.published seen log (postsOf e)
    runEntries groq disp r.1 r.2 es

/-- Model of one call to check_feed over the current upstream state. -/
def check_feed (groq : String → String → GroqResp) (disp : Alert → Bool)
    (entries : List Entry) (seen : Finset Fingerprint) : Finset Fingerprint × CycleLog :=
  runEntries groq disp seen emptyLog entries

/-! ## Bootstrap (initial scan of main, main.py lines 227 to 241) -/

/-- The inner loop of the initial scan: record every fingerprint and
count every post, with no filtering, assessment or alert. -/
def scanPosts (link : String) :
    Finset Fingerprint → Nat → List Post → Finset Fingerprint × Nat
  | seen, count, [] => (seen, count)
  | seen, count, p :: ps => scanPosts link (insert (fingerprint link p) seen) (count + 1) ps

/-- Model of the initial scan of main: pre-populate seen_posts with the
fingerprint of every currently observable post. -/
def initial_scan : Finset Fingerprint → Nat → List Entry → Finset Fingerprint × Nat
  | seen, count, [] => (seen, count)
  | seen, count, e :: es =>
    let r := scanPosts e.link seen count (postsOf e)
    initial_scan r.1 r.2 es

/-- A sequence of polling cycles, each seeing one upstream state, with
effects accumulated in one log. -/
def runCycles (groq : String → String → GroqResp) (disp : Alert → Bool) :
    Finset Fingerprint → CycleLog → List (List Entry) → Finset Fingerprint × CycleLog
  | seen, log, [] => (seen, log)
  | seen, log, es :: rest =>
    let r := runEntries groq disp seen log es
    runCycles groq disp r.1 r.2 rest

/-- Model of main after the credential check: the initial scan runs to
completion from an empty seen set, then the polling cycles run on its
result. -/
def run_main (groq : String → String → GroqResp) (disp : Alert → Bool)
    (boot : List Entry) (cycles : List (List Entry)) : Finset Fingerprint × CycleLog :=
  let s0 := initial_scan ∅ 0 boot
  runCycles groq disp s0.1 emptyLog cycles

/-- The fingerprints of all posts of one entry. -/
def entryFps (e : Entry) : List Fingerprint :=
  (postsOf e).map (fingerprint e.link)

/-- The fingerprints of all posts listed by an upstream state. -/
def allFps (es : List Entry) : List Fingerprint :=
  es.flatMap entryFps

/-- The number of posts listed by an upstream state. -/
def postCount (es : List Entry) : Nat :=
  (es.flatMap postsOf).length

/-! ## Lemmas on the tracker and the polling pipeline -/

theorem is_new_snd (seen : Finset Fingerprint) (k : Fingerprint) :
    (is_new seen k).2 = insert k seen := by
  unfold is_new
  by_cases h : k ∈ seen
  · simp [h, Finset.insert_eq_self.mpr h]
  · simp [h]

theorem processPost_fst (g : String → String → GroqResp) (d : Alert → Bool)
    (link pub : String) (seen : Finset Fingerprint) (log : CycleLog) (p : Post) :
    (processPost g d link pub seen log p).1 = insert (fingerprint link p) seen := by
  unfold processPost
  by_cases h : fingerprint link p ∈ seen
  · simp [h, Finset.insert_eq_self.mpr h]
  · by_cases hf : contains_profanity p.content = false <;> simp [h, hf]

theorem processPost_skip (g : String → String → GroqResp) (d : Alert → Bool)
    (link pub : String) (seen : Finset Fingerprint) (log : CycleLog) (p : Post)
    (h : fingerprint link p ∈ seen) :
    processPost g d link pub seen log p = (seen, log) := by
  unfold processPost
  simp [h]

theorem processPosts_fst (g : String → String → GroqResp) (d : Alert → Bool)
    (link pub : String) : ∀ (ps : List Post) (seen : Finset Fingerprint) (log : CycleLog),
    (processPosts g d link pub seen log ps).1 = seen ∪ (ps.map (fingerprint link)).toFinset
  | [], seen, log => by simp [processPosts]
  | p :: ps, seen, log => by
    have ih := processPosts_fst g d link pub ps
    simp only [processPosts]
    rw [ih, processPost_fst]
    simp [Finset.insert_union, Finset.union_insert]

theorem runEntries_fst (g : String → String → GroqResp) (d : Alert → Bool) :
    ∀ (es : List Entry) (seen : Finset Fingerprint) (log : CycleLog),
    (runEntries g d seen log es).1 = seen ∪ (allFps es).toFinset
  | [], seen, log => by simp [runEntries, allFps]
  | e :: es, seen, log => by
    have ih := runEntries_fst g d es
    simp only [runEntries]
    rw [ih, processPosts_fst]
    simp [allFps, entryFps, Finset.union_assoc]

theorem processPosts_skip (g : String → String → GroqResp) (d : Alert → Bool)
    (link pub : String) : ∀ (ps : List Post) (seen : Finset Fingerprint) (log : CycleLog),
    (∀ p ∈ ps, fingerprint link p ∈ seen) →
    processPosts g d link pub seen log ps = (seen, log)
  | [], seen, log, _ => rfl
  | p :: ps, seen, log, h => by
    simp only [processPosts]
    rw [processPost_skip g d link pub seen log p (h p (List.mem_cons_self p ps))]
    exact processPosts_skip g d link pub ps seen log (fun q hq => h q (List.mem_cons_of_mem p hq))

theorem runEntries_skip (g : String → String → GroqResp) (d : Alert → Bool) :
    ∀ (es : List Entry) (seen : Finset Fingerprint) (log : CycleLog),
    (∀ fp ∈ allFps es, fp ∈ seen) →
    runEntries g d seen log es = (seen, log)
  | [], seen, log, _ => rfl
  | e :: es, seen, log, h => by
    simp only [runEntries]
    have h1 : ∀ p ∈ postsOf e, fingerprint e.link p ∈ seen := by
      intro p hp
      refine h (fingerprint e.link p) ?_
      simp only [allFps, List.flatMap_cons, List.mem_append]
      exact Or.inl (by simp [entryFps]; exact ⟨p, hp, rfl⟩)
    rw [processPosts_skip g d e.link e.published (postsOf e) seen log h1]
    refine runEntries_skip g d es seen log ?_
    intro fp hfp
    refine h fp ?_
    simp only [allFps, List.flatMap_cons, List.mem_append]
    exact Or.inr (by simpa [allFps] using hfp)

theorem scanPosts_eq (link : String) :
    ∀ (ps : List Post) (seen : Finset Fingerprint) (count : Nat),
    scanPosts link seen count ps =
      (seen ∪ (ps.map (fingerprint link)).toFinset, count + ps.length)
  | [], seen, count => by simp [scanPosts]
  | p :: ps, seen, count => by
    have ih := scanPosts_eq link ps (insert (fingerprint link p) seen) (count + 1)
    simp only [scanPosts]
    rw [ih]
    simp only [Prod.mk.injEq]
    refine ⟨?_, ?_⟩
    · simp [Finset.insert_union, Finset.union_insert]
    · simp [Nat.add_comm, Nat.add_assoc, Nat.add_left_comm]

theorem initial_scan_eq :
    ∀ (es : List Entry) (seen : Finset Fingerprint) (count : Nat),
    initial_scan seen count es =
      (seen ∪ (allFps es).toFinset, count + postCount es)
  | [], seen, count => by simp [initial_scan, allFps, postCount]
  | e :: es, seen, count => by
    simp only [initial_scan]
    rw [scanPosts_eq, initial_scan_eq]
    simp only [Prod.mk.injEq]
    refine ⟨?_, ?_⟩
    · simp [allFps, entryFps, Finset.union_assoc]
    · simp [postCount, Nat.add_assoc]

/-- The delivery-independent part of a log: the filter calls, the
assessment calls, and the composed alerts without their delivery
outcomes. -/
def logAttempts (l : CycleLog) : List String × List (String × String) × List Alert :=
  (l.filterCalls, l.groqCalls, l.alerts.map Prod.fst)

theorem processPost_dispatch (g : String → String → GroqResp) (d1 d2 : Alert → Bool)
    (link pub : String) (seen : Finset Fingerprint) (l1 l2 : CycleLog) (p : Post)
    (h : logAttempts l1 = logAttempts l2) :
    logAttempts (processPost g d1 link pub seen l1 p).2 =
      logAttempts (processPost g d2 link pub seen l2 p).2 := by
  obtain ⟨h1, h2, h3⟩ : l1.filterCalls = l2.filterCalls ∧ l1.groqCalls = l2.groqCalls ∧
      l1.alerts.map Prod.fst = l2.alerts.map Prod.fst := by
    simpa [logAttempts, Prod.mk.injEq] using h
  unfold processPost
  by_cases hm : fingerprint link p ∈ seen
  · simpa [hm] using h
  · by_cases hf : contains_profanity p.content = false
    · simp [hm, hf, logAttempts, h1, h2, h3]
    · simp [hm, hf, logAttempts, h1, h2, h3, send_discord_report]

theorem processPosts_dispatch (g : String → String → GroqResp) (d1 d2 : Alert → Bool)
    (link pub : String) : ∀ (ps : List Post) (seen : Finset Fingerprint) (l1 l2 : CycleLog),
    logAttempts l1 = logAttempts l2 →
    logAttempts (processPosts g d1 link pub seen l1 ps).2 =
      logAttempts (processPosts g d2 link pub seen l2 ps).2
  | [], seen, l1, l2, h => h
  | p :: ps, seen, l1, l2, h => by
    simp only [processPosts]
    rw [processPost_fst g d1 link pub seen l1 p, processPost_fst g d2 link pub seen l2 p]
    exact processPosts_dispatch g d1 d2 link pub ps (insert (fingerprint link p) seen) _ _
      (processPost_dispatch g d1 d2 link pub seen l1 l2 p h)

theorem runEntries_dispatch (g : String → String → GroqResp) (d1 d2 : Alert → Bool) :
    ∀ (es : List Entry) (seen : Finset Fingerprint) (l1 l2 : CycleLog),
    logAttempts l1 = logAttempts l2 →
    logAttempts (runEntries g d1 seen l1 es).2 = logAttempts (runEntries g d2 seen l2 es).2
  | [], seen, l1, l2, h => h
  | e :: es, seen, l1, l2, h => by
    simp only [runEntries]
    rw [processPosts_fst g d1 e.link e.published (postsOf e) seen l1,
      processPosts_fst g d2 e.link e.published (postsOf e) seen l2]
    exact runEntries_dispatch g d1 d2 es _ _ _
      (processPosts_dispatch g d1 d2 e.link e.published (postsOf e) seen l1 l2 h)

theorem runChecks_snd : ∀ (ks : List Fingerprint) (seen : Finset Fingerprint),
    (runChecks seen ks).2 = seen ∪ ks.toFinset
  | [], seen => by simp [runChecks]
  | k :: ks, seen => by
    simp only [runChecks]
    rw [runChecks_snd ks, is_new_snd]
    simp [Finset.insert_union, Finset.union_insert]

theorem allFps_length : ∀ es : List Entry, (allFps es).length = postCount es
  | [] => rfl
  | e :: es => by
    simp only [allFps, postCount, List.flatMap_cons, List.length_append]
    have ih := allFps_length es
    simp only [allFps, postCount] at ih
    simp [entryFps, ih]

theorem processCell_none_of_no_marker (t : String)
    (h : strContains t postByMarker = false) : processCell t = none := by
  unfold processCell
  by_cases hl : t.length < 20
  · simp [hl]
  · simp [hl, h]

/-! ## Spec-side definitions for the extractor claims -/

theorem strContains_eq_occIdx_isSome (s pat : String) :
    strContains s pat = (occIdx pat.data s.data).isSome := by
  rw [strContains, splitFirst_eq_occIdx]
  cases occIdx pat.data s.data <;> rfl

theorem splitIdx0_none (pat s : List Char) (h : occIdx pat s = none) :
    splitIdx0 pat s = s := by
  unfold splitIdx0
  rw [splitFirst_eq_occIdx, h]
  rfl

theorem splitIdx0_some (pat s : List Char) (i : Nat) (h : occIdx pat s = some i) :
    splitIdx0 pat s = s.take i := by
  unfold splitIdx0
  rw [splitFirst_eq_occIdx, h]
  rfl

theorem splitIdx1_some (pat s : List Char) (i : Nat) (h : occIdx pat s = some i) :
    splitIdx1 pat s =
      match occIdx pat (s.drop (i + pat.length)) with
      | none => s.drop (i + pat.length)
      | some j => (s.drop (i + pat.length)).take j := by
  unfold splitIdx1
  rw [splitFirst_eq_occIdx, h]
  show (match splitFirst pat (s.drop (i + pat.length)) with
    | none => s.drop (i + pat.length)
    | some (c, _) => c) = _
  rw [splitFirst_eq_occIdx]
  cases h2 : occIdx pat (s.drop (i + pat.length)) <;> rfl

/-- The content rule with the words of the original claim: everything
after a Back to Top marker when one is present (stripped), else the
whole cell text. -/
def specClaimContent (text : String) : String :=
  match splitFirst backToTopMarker.data text.data with
  | none => text
  | some (_, rest) => trimStr (String.mk rest)

/-- The per-cell legacy rule as amended: a post needs at least 20
characters and the header marker; the author is the text after the
first header marker, truncated at the next header marker if any and
then at the first occurrence of the separator, stripped; the content is
the text strictly between the first and second Back to Top markers
(everything after it when it occurs once), stripped, else the whole
cell text; a post is produced only when the content is nonempty. -/
def legacyCellAmended (text : String) : Option Post :=
  if text.length < 20 then none
  else
    match occIdx postByMarker.data text.data with
    | none => none
    | some i =>
      let rest := text.data.drop (i + postByMarker.data.length)
      let seg :=
        match occIdx postByMarker.data rest with
        | none => rest
        | some j => rest.take j
      let author :=
        trimStr (String.mk (match occIdx onMarker.data seg with
          | none => seg
          | some k2 => seg.take k2))
      let content :=
        match occIdx backToTopMarker.data text.data with
        | none => text
        | some m =>
          let tail := text.data.drop (m + backToTopMarker.data.length)
          trimStr (String.mk (match occIdx backToTopMarker.data tail with
            | none => tail
            | some n2 => tail.take n2))
      if content = "" then none else some { author := author, content := content }

/-! ## Concrete fixtures for witnesses and counterexamples -/

/-- An assessment oracle that always succeeds. -/
def g0 : String → String → GroqResp := fun _ _ => GroqResp.ok " looks harmless. "

/-- The exception text of the failing assessment oracle. -/
def failMsg0 : String := "timeout"

/-- An assessment oracle that always fails. -/
def gfail0 : String → String → GroqResp := fun _ _ => GroqResp.err failMsg0

/-- A delivery oracle for which every webhook post succeeds. -/
def d0 : Alert → Bool := fun _ => true

/-- A delivery oracle for which every webhook post fails. -/
def dfail0 : Alert → Bool := fun _ => false

def link0 : String := "https://coastal-anarchy.boards.net/thread/1"

def pub0 : String := "Mon, 01 Jan 2026"

/-- A post whose content trips the local filter (it holds the word crap). -/
def flaggedPost : Post := { author := "Sam", content := "this schedule is complete crap" }

/-- A post whose content trips no configured word. -/
def cleanPost : Post := { author := "Riley", content := "what a lovely sunny day" }

def linkB : String := "https://coastal-anarchy.boards.net/thread/42"

def pubB : String := "Tue, 03 Mar 2026"

/-- A short legacy post-header cell. -/
def cellB : String := "Post by Bo on Tue this is a plain hello note"

/-- A feed entry for one thread holding the one cell of cellB. -/
def entryB : Entry :=
  { link := linkB, published := pubB, title := "hello thread", cells := [cellB] }

/-- The post scrape_thread recovers from cellB. -/
def postB : Post := { author := "Bo", content := cellB }

/-- A 100-character cell prefix shared by the two long cells below. -/
def baseCell : String :=
  "Post by Casey on Monday we walked along the shore and watched the tide come in slowly over the rocks"

/-- A long cell: baseCell plus one tail. -/
def cellL1 : String := baseCell ++ " before the rain began"

/-- A long cell agreeing with cellL1 on the first 100 characters only. -/
def cellL2 : String := baseCell ++ " and then we headed home"

def linkL : String := "https://coastal-anarchy.boards.net/thread/7"

/-- A feed entry whose thread yields two distinct posts with the same
fingerprint (same author, contents agreeing on the first 100
characters). -/
def entryL : Entry :=
  { link := linkL, published := pub0, title := "shore walk", cells := [cellL1, cellL2] }

/-- The first long post (content is the whole cell text). -/
def postL1 : Post := { author := "Casey", content := cellL1 }

/-- The second long post, differing from postL1 only beyond character
100. -/
def postL2 : Post := { author := "Casey", content := cellL2 }

def cellW1 : String := "Post by Alex on Friday the pier lights were busted again"

def cellW2 : String := "Post by Blake on Friday someone moved the kayak racks"

/-- A feed entry whose two posts have distinct fingerprints. -/
def entryW : Entry :=
  { link := linkB, published := pubB, title := "pier thread", cells := [cellW1, cellW2] }

/-! ## Claim theorems -/

/-- The alert composed for a flagged post, as check_feed passes it to
send_discord_report. -/
def composedAlert (g : String → String → GroqResp) (pub link : String) (p : Post) : Alert :=
  { post_time := pub, author := p.author, profanity := true,
    bullying_summary := ask_groq g p.content p.author, post_url := link }

/-- C1: for a post processed in a polling cycle, a new fingerprint with
flagged content yields exactly one assessment call and exactly one alert
dispatch attempt; a new fingerprint with unflagged content yields
neither but the key is still marked seen; an already seen fingerprint
yields neither and leaves the state unchanged. -/
theorem check_feed_per_post_escalation (g : String → String → GroqResp) (d : Alert → Bool)
    (link pub : String) (seen : Finset Fingerprint) (log : CycleLog) (post : Post) :
    (fingerprint link post ∉ seen → contains_profanity post.content = true →
      processPost g d link pub seen log post =
        (insert (fingerprint link post) seen,
         { filterCalls := log.filterCalls ++ [post.content],
           groqCalls := log.groqCalls ++ [(post.content, post.author)],
           alerts := log.alerts ++
             [(composedAlert g pub link post, d (composedAlert g pub link post))] })) ∧
    (fingerprint link post ∉ seen → contains_profanity post.content = false →
      processPost g d link pub seen log post =
        (insert (fingerprint link post) seen,
         { filterCalls := log.filterCalls ++ [post.content],
           groqCalls := log.groqCalls, alerts := log.alerts })) ∧
    (fingerprint link post ∈ seen →
      processPost g d link pub seen log post = (seen, log)) := by
  refine ⟨?_, ?_, ?_⟩
  · intro hnew hflag
    simp [processPost, send_discord_report, composedAlert, hnew, hflag]
  · intro hnew hclean
    simp [processPost, hnew, hclean]
  · intro hseen
    simp [processPost, hseen]

/-- Witness for C1 at concrete inputs: a new flagged post, a new clean
post, and an already seen post. -/
theorem check_feed_per_post_escalation_witness :
    (processPost g0 d0 link0 pub0 ∅ emptyLog flaggedPost =
      (insert (fingerprint link0 flaggedPost) ∅,
       { filterCalls := [flaggedPost.content],
         groqCalls := [(flaggedPost.content, flaggedPost.author)],
         alerts := [(composedAlert g0 pub0 link0 flaggedPost,
                     d0 (composedAlert g0 pub0 link0 flaggedPost))] })) ∧
    (processPost g0 d0 link0 pub0 ∅ emptyLog cleanPost =
      (insert (fingerprint link0 cleanPost) ∅,
       { filterCalls := [cleanPost.content], groqCalls := [], alerts := [] })) ∧
    (processPost g0 d0 link0 pub0 {fingerprint link0 flaggedPost} emptyLog flaggedPost =
      ({fingerprint link0 flaggedPost}, emptyLog)) :=
  ⟨(check_feed_per_post_escalation g0 d0 link0 pub0 ∅ emptyLog flaggedPost).1
      (Finset.not_mem_empty _) (by decide),
   (check_feed_per_post_escalation g0 d0 link0 pub0 ∅ emptyLog cleanPost).2.1
      (Finset.not_mem_empty _) (by decide),
   (check_feed_per_post_escalation g0 d0 link0 pub0 {fingerprint link0 flaggedPost}
      emptyLog flaggedPost).2.2 (Finset.mem_singleton_self _)⟩

/-- C2 counterexample: a key pre-populated by the bootstrap scan is
reported not-new by its first novelty check of the process lifetime,
against the claim that the first check of every key reports new. -/
theorem tracker_first_check_counterexample :
    postsOf entryB = [postB] ∧
    fingerprint linkB postB ∈ (initial_scan ∅ 0 [entryB]).1 ∧
    (is_new (initial_scan ∅ 0 [entryB]).1 (fingerprint linkB postB)).1 = false := by
  decide

/-- C2 (amended): a novelty check reports new exactly when the key is
not yet in the SeenSet (so the first check of a key reports new unless
the bootstrap scan pre-populated it) and inserts the key; a repeated
check reports not-new; the SeenSet only grows under checks, never
shrinks; and the per-post processing updates the SeenSet exactly as the
check-and-insert does, membership being its sole gate. -/
theorem tracker_check_and_insert (seen : Finset Fingerprint) (k : Fingerprint)
    (ks : List Fingerprint) (g : String → String → GroqResp) (d : Alert → Bool)
    (link pub : String) (log : CycleLog) (post : Post) :
    ((is_new seen k).1 = true ↔ k ∉ seen) ∧
    (is_new seen k).2 = insert k seen ∧
    (is_new (is_new seen k).2 k).1 = false ∧
    (runChecks seen ks).2 = seen ∪ ks.toFinset ∧
    seen ⊆ (runChecks seen ks).2 ∧
    (processPost g d link pub seen log post).1 = (is_new seen (fingerprint link post)).2 := by
  refine ⟨?_, is_new_snd seen k, ?_, runChecks_snd ks seen, ?_, ?_⟩
  · unfold is_new
    by_cases h : k ∈ seen <;> simp [h]
  · rw [is_new_snd]
    simp [is_new]
  · rw [runChecks_snd]
    exact Finset.subset_union_left
  · rw [processPost_fst, is_new_snd]

/-- C4: the local filter reports a text exactly when some configured
word occurs case-insensitively as a substring of it, word boundaries
ignored; in particular the word ass flags the text about an assignment. -/
theorem contains_profanity_iff_substring :
    (∀ T : String, contains_profanity T = true ↔
      ∃ w ∈ PROFANITY_LIST, (lowerStr w).data <:+: (lowerStr T).data) ∧
    contains_profanity "I have an assignment" = true := by
  have hlow : ∀ w ∈ PROFANITY_LIST, lowerStr w = w := by decide
  constructor
  · intro T
    simp only [contains_profanity, List.any_eq_true]
    constructor
    · rintro ⟨w, hw, hc⟩
      exact ⟨w, hw, by rw [hlow w hw]; exact (strContains_iff_sub _ _).mp hc⟩
    · rintro ⟨w, hw, hc⟩
      exact ⟨w, hw, (strContains_iff_sub _ _).mpr (by rwa [hlow w hw] at hc)⟩
  · decide

/-- C6: the set of seen fingerprints after a cycle does not depend on
the alert delivery outcomes (it always equals the prior set united with
the fingerprints of all scraped posts), the attempted calls and alerts
are likewise delivery-independent, and a post whose fingerprint is
already seen is never escalated again. -/
theorem dispatch_failure_isolated (g : String → String → GroqResp) (d1 d2 : Alert → Bool)
    (entries : List Entry) (seen : Finset Fingerprint) (link pub : String)
    (log : CycleLog) (post : Post) :
    (check_feed g d1 entries seen).1 = (check_feed g d2 entries seen).1 ∧
    (check_feed g d1 entries seen).1 = seen ∪ (allFps entries).toFinset ∧
    logAttempts (check_feed g d1 entries seen).2 = logAttempts (check_feed g d2 entries seen).2 ∧
    (fingerprint link post ∈ seen →
      processPost g d1 link pub seen log post = (seen, log)) := by
  refine ⟨?_, ?_, ?_, ?_⟩
  · rw [check_feed, check_feed, runEntries_fst, runEntries_fst]
  · rw [check_feed, runEntries_fst]
  · exact runEntries_dispatch g d1 d2 entries seen emptyLog emptyLog rfl
  · exact processPost_skip g d1 link pub seen log post

/-- Witness for C6: failing delivery against succeeding delivery on a
concrete upstream state, and a concrete already-seen post that is not
re-escalated. -/
theorem dispatch_failure_isolated_witness :
    (check_feed g0 dfail0 [entryB] ∅).1 = (check_feed g0 d0 [entryB] ∅).1 ∧
    processPost g0 dfail0 link0 pub0 {fingerprint link0 flaggedPost} emptyLog flaggedPost =
      ({fingerprint link0 flaggedPost}, emptyLog) :=
  ⟨(dispatch_failure_isolated g0 dfail0 d0 [entryB] ∅ link0 pub0 emptyLog flaggedPost).1,
   (dispatch_failure_isolated g0 dfail0 d0 [entryB] {fingerprint link0 flaggedPost}
      link0 pub0 emptyLog flaggedPost).2.2.2 (Finset.mem_singleton_self _)⟩

/-- C7: when the assessment call fails, the escalation still happens:
exactly one assessment attempt and one alert dispatch are made, and the
alert carries the literal error placeholder in place of the assessment
text. -/
theorem assessment_failure_placeholder (g : String → String → GroqResp) (d : Alert → Bool)
    (link pub : String) (seen : Finset Fingerprint) (log : CycleLog) (post : Post)
    (e : String) (hnew : fingerprint link post ∉ seen)
    (hflag : contains_profanity post.content = true)
    (herr : g post.content post.author = GroqResp.err e) :
    processPost g d link pub seen log post =
      (insert (fingerprint link post) seen,
       { filterCalls := log.filterCalls ++ [post.content],
         groqCalls := log.groqCalls ++ [(post.content, post.author)],
         alerts := log.alerts ++
           [({ post_time := pub, author := post.author, profanity := true,
               bullying_summary := groqErrorPlaceholder e, post_url := link },
             d { post_time := pub, author := post.author, profanity := true,
                 bullying_summary := groqErrorPlaceholder e, post_url := link })] }) := by
  simp [processPost, send_discord_report, ask_groq, herr, hnew, hflag]

/-- Witness for C7 at a concrete flagged post with a failing oracle. -/
theorem assessment_failure_placeholder_witness :
    processPost gfail0 d0 link0 pub0 ∅ emptyLog flaggedPost =
      (insert (fingerprint link0 flaggedPost) ∅,
       { filterCalls := [flaggedPost.content],
         groqCalls := [(flaggedPost.content, flaggedPost.author)],
         alerts := [({ post_time := pub0, author := flaggedPost.author, profanity := true,
                       bullying_summary := groqErrorPlaceholder failMsg0, post_url := link0 },
                     d0 { post_time := pub0, author := flaggedPost.author, profanity := true,
                          bullying_summary := groqErrorPlaceholder failMsg0,
                          post_url := link0 })] }) :=
  assessment_failure_placeholder gfail0 d0 link0 pub0 ∅ emptyLog flaggedPost failMsg0
    (Finset.not_mem_empty _) (by decide) rfl

/-- C9: a second polling cycle over an unchanged upstream state makes no
filter, assessment or alert calls at all and leaves the seen set
unchanged, whatever the oracles do. -/
theorem second_cycle_idempotent (g1 g2 : String → String → GroqResp)
    (d1 d2 : Alert → Bool) (entries : List Entry) (seen : Finset Fingerprint) :
    check_feed g2 d2 entries (check_feed g1 d1 entries seen).1 =
      ((check_feed g1 d1 entries seen).1, emptyLog) := by
  unfold check_feed
  apply runEntries_skip
  intro fp hfp
  rw [runEntries_fst]
  exact Finset.mem_union_right _ (List.mem_toFinset.mpr hfp)

/-- C10: the change key is the triple of thread link, author and first
100 content characters; once a post with that key has been processed, a
second post in the same thread by the same author agreeing on the first
100 characters is a complete no-op: no filter call, no assessment, no
alert, no state change. -/
theorem fingerprint_collision_skips (g : String → String → GroqResp) (d : Alert → Bool)
    (link pub : String) (seen : Finset Fingerprint) (log : CycleLog) (p1 p2 : Post)
    (hauth : p1.author = p2.author)
    (hsnip : takeStr p1.content 100 = takeStr p2.content 100) :
    fingerprint link p1 = (link, p1.author, takeStr p1.content 100) ∧
    fingerprint link p1 = fingerprint link p2 ∧
    processPost g d link pub (processPost g d link pub seen log p1).1
        (processPost g d link pub seen log p1).2 p2 =
      ((processPost g d link pub seen log p1).1,
       (processPost g d link pub seen log p1).2) := by
  have hfp : fingerprint link p1 = fingerprint link p2 := by
    simp [fingerprint, hauth, hsnip]
  refine ⟨rfl, hfp, ?_⟩
  apply processPost_skip
  rw [← hfp, processPost_fst]
  exact Finset.mem_insert_self _ _

/-- Witness for C10: two concrete posts differing only beyond character
100; after the first is processed, processing the second changes
nothing. -/
theorem fingerprint_collision_skips_witness :
    (processPost g0 d0 linkL pub0 (processPost g0 d0 linkL pub0 ∅ emptyLog postL1).1
        (processPost g0 d0 linkL pub0 ∅ emptyLog postL1).2 postL2 =
      ((processPost g0 d0 linkL pub0 ∅ emptyLog postL1).1,
       (processPost g0 d0 linkL pub0 ∅ emptyLog postL1).2)) ∧
    postL1 ≠ postL2 :=
  ⟨(fingerprint_collision_skips g0 d0 linkL pub0 ∅ emptyLog postL1 postL2 rfl
      (by decide)).2.2, by decide⟩

/-! ## C3: the structured extraction strategy -/

/-- The class name standing for the message-body container. -/
def messageBodyClass : String := "message"

/-- Modelled from the spec: the structured extraction strategy (spec
section 4.1, strategy 1) and its specific element/class pairing carrying
message bodies are absent from src/main.py, so a structured post block
is modelled as an element bearing the message-body class. -/
def structuredBlocks (doc : Node) : List Node :=
  collectElems (fun _ cls => cls.contains messageBodyClass) doc

/-- The body text of the first structured post block below. -/
def body1 : String := "hello everyone happy to join this forum"

/-- The body text of the second structured post block below. -/
def body2 : String := "nice weather around the coast today"

/-- A structured-markup document with two well-formed post blocks and no
legacy post-header marker anywhere. -/
def structuredDoc : Node :=
  Node.elem "html" []
    [Node.elem "table" []
      [Node.elem "tr" []
        [Node.elem "td" [] [Node.elem "div" [messageBodyClass] [Node.text body1]]],
       Node.elem "tr" []
        [Node.elem "td" [] [Node.elem "div" [messageBodyClass] [Node.text body2]]]]]

/-- C3 counterexample: a structured-markup document carrying two
well-formed post blocks from which scrape_thread extracts nothing,
against the claim that the structured strategy returns its two posts:
src/main.py has no structured strategy. -/
theorem extractor_structured_counterexample :
    (structuredBlocks structuredDoc).map getText = [body1, body2] ∧
    scrape_thread structuredDoc = [] := by
  decide

/-- C3 (amended): the extractor implements the legacy strategy only:
every document none of whose td-cell texts holds the post-header
marker, structured markup included, yields the empty sequence. -/
theorem extractor_legacy_only (doc : Node)
    (h : ∀ t ∈ tdTexts doc, strContains t postByMarker = false) :
    scrape_thread doc = [] := by
  have hgen : ∀ l : List String, (∀ t ∈ l, strContains t postByMarker = false) →
      l.filterMap processCell = [] := by
    intro l
    induction l with
    | nil => intro _; rfl
    | cons t ts ih =>
      intro hl
      rw [List.filterMap_cons,
        processCell_none_of_no_marker t (hl t (List.mem_cons_self t ts))]
      exact ih (fun q hq => hl q (List.mem_cons_of_mem t hq))
  exact hgen (tdTexts doc) h

/-- Witness for C3 (amended) at the structured document. -/
theorem extractor_legacy_only_witness : scrape_thread structuredDoc = [] :=
  extractor_legacy_only structuredDoc (by decide)

/-! ## C5: the per-cell legacy rule -/

/-- A header cell with two Back to Top markers and no occurrence of the
separator substring. -/
def cexCell : String := "Post by Aly X Back to Top hello world Back to Top trailing junk"

/-- The author string processCell extracts from cexCell. -/
def cexAuthor : String := "Aly X Back to Top hello world Back to Top trailing junk"

/-- C5 counterexample: on a cell with two Back to Top markers the code
takes the segment strictly between the two markers as content, not
everything after a marker as claimed; and with no separator occurrence
the whole remainder becomes the author instead of the claimed Unknown
default. -/
theorem legacy_cell_claim_counterexample :
    processCell cexCell = some { author := cexAuthor, content := "hello world" } ∧
    specClaimContent cexCell = "hello world Back to Top trailing junk" ∧
    ("hello world" : String) ≠ "hello world Back to Top trailing junk" ∧
    strContains cexCell onMarker = false ∧
    cexAuthor ≠ "Unknown" := by
  decide

/-- C5 (amended): processCell agrees on every cell text with the
amended description legacyCellAmended. -/
theorem legacy_cell_amended_eq (text : String) :
    processCell text = legacyCellAmended text := by
  unfold processCell legacyCellAmended
  by_cases hlen : text.length < 20
  · simp [hlen]
  · simp only [hlen, if_false, strContains_eq_occIdx_isSome]
    cases hA : occIdx postByMarker.data text.data with
    | none => simp
    | some i =>
      simp only [Option.isSome_some]
      rw [splitIdx1_some postByMarker.data text.data i hA]
      cases hD : occIdx postByMarker.data (text.data.drop (i + postByMarker.data.length)) with
      | none =>
        cases hE : occIdx onMarker.data (text.data.drop (i + postByMarker.data.length)) with
        | none =>
          rw [splitIdx0_none _ _ hE]
          cases hB : occIdx backToTopMarker.data text.data with
          | none => simp
          | some m =>
            rw [splitIdx1_some backToTopMarker.data text.data m hB]
            cases hC : occIdx backToTopMarker.data
                (text.data.drop (m + backToTopMarker.data.length)) with
            | none =>
              simp
              rw [show occIdx backToTopMarker.data
                  (List.drop (m + backToTopMarker.length) text.data) = none from hC]
            | some n2 =>
              simp
              rw [show occIdx backToTopMarker.data
                  (List.drop (m + backToTopMarker.length) text.data) = some n2 from hC]
        | some k2 =>
          rw [splitIdx0_some _ _ _ hE]
          cases hB : occIdx backToTopMarker.data text.data with
          | none => simp
          | some m =>
            rw [splitIdx1_some backToTopMarker.data text.data m hB]
            cases hC : occIdx backToTopMarker.data
                (text.data.drop (m + backToTopMarker.data.length)) with
            | none =>
              simp
              rw [show occIdx backToTopMarker.data
                  (List.drop (m + backToTopMarker.length) text.data) = none from hC]
            | some n2 =>
              simp
              rw [show occIdx backToTopMarker.data
                  (List.drop (m + backToTopMarker.length) text.data) = some n2 from hC]
      | some j =>
        cases hE : occIdx onMarker.data
            ((text.data.drop (i + postByMarker.data.length)).take j) with
        | none =>
          rw [splitIdx0_none _ _ hE]
          cases hB : occIdx backToTopMarker.data text.data with
          | none => simp
          | some m =>
            rw [splitIdx1_some backToTopMarker.data text.data m hB]
            cases hC : occIdx backToTopMarker.data
                (text.data.drop (m + backToTopMarker.data.length)) with
            | none =>
              simp
              rw [show occIdx backToTopMarker.data
                  (List.drop (m + backToTopMarker.length) text.data) = none from hC]
            | some n2 =>
              simp
              rw [show occIdx backToTopMarker.data
                  (List.drop (m + backToTopMarker.length) text.data) = some n2 from hC]
        | some k2 =>
          rw [splitIdx0_some _ _ _ hE]
          cases hB : occIdx backToTopMarker.data text.data with
          | none => simp
          | some m =>
            rw [splitIdx1_some backToTopMarker.data text.data m hB]
            cases hC : occIdx backToTopMarker.data
                (text.data.drop (m + backToTopMarker.data.length)) with
            | none =>
              simp
              rw [show occIdx backToTopMarker.data
                  (List.drop (m + backToTopMarker.length) text.data) = none from hC]
            | some n2 =>
              simp
              rw [show occIdx backToTopMarker.data
                  (List.drop (m + backToTopMarker.length) text.data) = some n2 from hC]

/-! ## C8: the bootstrap scan -/

set_option maxRecDepth 8000 in
/-- C8 counterexample: an upstream state with two pre-existing posts
whose fingerprints coincide; the bootstrap scan sees both posts but
populates a single key, against the claim of exactly N keys for N
posts. -/
theorem bootstrap_key_count_counterexample :
    postCount [entryL] = 2 ∧
    (initial_scan ∅ 0 [entryL]).2 = 2 ∧
    (initial_scan ∅ 0 [entryL]).1.card = 1 := by
  decide

/-- C8 (amended): the bootstrap scan populates the seen set with
exactly the set of fingerprints of the N pre-existing posts (exactly N
keys when those fingerprints are pairwise distinct), counts every post,
performs no filter, assessment or alert call, and completes before the
first polling cycle, which starts from its result. -/
theorem bootstrap_populates_without_escalation (boot : List Entry)
    (g : String → String → GroqResp) (d : Alert → Bool) (cycles : List (List Entry)) :
    (initial_scan ∅ 0 boot).1 = (allFps boot).toFinset ∧
    (initial_scan ∅ 0 boot).2 = postCount boot ∧
    ((allFps boot).Nodup → (initial_scan ∅ 0 boot).1.card = postCount boot) ∧
    run_main g d boot [] = ((allFps boot).toFinset, emptyLog) ∧
    run_main g d boot cycles = runCycles g d ((allFps boot).toFinset) emptyLog cycles := by
  have h := initial_scan_eq boot ∅ 0
  have h1 : (initial_scan ∅ 0 boot).1 = (allFps boot).toFinset := by rw [h]; simp
  have h2 : (initial_scan ∅ 0 boot).2 = postCount boot := by rw [h]; simp
  refine ⟨h1, h2, ?_, ?_, ?_⟩
  · intro hnd
    rw [h1, List.toFinset_card_of_nodup hnd, allFps_length]
  · unfold run_main
    simp only [runCycles]
    rw [h1]
  · unfold run_main
    show runCycles g d (initial_scan ∅ 0 boot).1 emptyLog cycles =
      runCycles g d ((allFps boot).toFinset) emptyLog cycles
    rw [h1]

/-- Witness for C8 (amended): a bootstrap over two posts with distinct
fingerprints populates exactly two keys. -/
theorem bootstrap_populates_witness :
    (initial_scan ∅ 0 [entryW]).1.card = postCount [entryW] ∧
    (initial_scan ∅ 0 [entryW]).2 = postCount [entryW] ∧
    postCount [entryW] = 2 :=
  ⟨(bootstrap_populates_without_escalation [entryW] g0 d0 []).2.2.1 (by decide),
   (bootstrap_populates_without_escalation [entryW] g0 d0 []).2.1, by decide⟩

end CoastalBot
